import Mathlib

/-!
Verification of the loop-flow (Hardy-Cross) solver of `bolcan/pipeline_eng.py`.

The Python function `pipe_network` is embedded shallowly:

* Python floats are idealised as exact rationals (`ℚ`); `math.pow` is kept
  abstract as a parameter `pow : ℚ → ℚ → ℚ` and instantiated with exact
  integer powers (`powNat`) wherever the exponent in the source is a natural
  number (Darcy-Weisbach `n = 2`, `3.143**2`, `diameter**5`).
* pandas DataFrames become a loop record carrying the header (`cols`, which
  drives the column-existence checks exactly as `df.columns` does) and typed
  rows; `df[c].astype(float)` on a missing column raises a pandas `KeyError`,
  modelled by `PNError.keyError`; the explicit `raise ValueError(...)`
  messages are carried verbatim in `PNError.valueError`.
* the `while True:` loop of the source terminates through the
  `iterations >= max_iter` break; it is embedded as structural recursion on
  the fuel `max_iter - 1` (the counter starts at 1 in the source), together
  with a ghost counter of how many flow updates were performed.
* rational division by zero is total (`x / 0 = 0`) in Lean whereas the source
  would produce IEEE `inf`/`nan`; theorems about concrete runs of the `ℚ`
  model therefore only quote runs in which every divisor is nonzero.  The
  IEEE special values themselves are modelled separately (`FVal`) to settle
  the division-by-zero behaviour.
* `round(x, 4)` is Python's round-half-to-even at the fourth decimal,
  modelled exactly on `ℚ` by `round4`.
-/

/-- The `equation` argument; `pipe_network` raises for any other string, so
only these two values reach the computation. -/
inductive Equation where
  | darcy
  | hazen
deriving DecidableEq

/-- Line 102: `n = 2 if equation == 'darcy' else 1.85`. -/
def exponent (eq : Equation) : ℚ :=
  if eq = .darcy then 2 else 1.85

/-- One data row of a loop's table.  A field is `none` when the column is
absent from the table. -/
structure RawPipe where
  pipe : Option String
  length : Option ℚ
  diameter : Option ℚ
  f : Option ℚ
  C : Option ℚ
  K : Option ℚ
  Qa : Option ℚ
deriving DecidableEq

/-- One entry of the `loops` argument: the loop's name, the header row
(`df.columns`) and the data rows. -/
structure RawLoop where
  name : String
  cols : List String
  rows : List RawPipe
deriving DecidableEq

/-- One entry of `pipes_in_common_loops`: `{'name': ..., 'loops': [...]}`.
The Python default `None` behaves exactly like the empty list (both are falsy
at line 193 and skip the loop at line 188), so the optional argument is
embedded as a plain list. -/
structure CommonPipe where
  name : String
  loops : List String
deriving DecidableEq

/-- The failures of the validation phase (lines 106-137): `keyError c` is the
pandas `KeyError` raised by `df[c].astype(float)` when column `c` is absent;
`valueError msg` is an explicit `raise ValueError(msg)` of the source. -/
inductive PNError where
  | keyError (col : String)
  | valueError (msg : String)
deriving DecidableEq

/-- Line 112. -/
def pipeMsg : String :=
  "No 'pipe' column was found. Make sure you have the names of the pipes under a column named 'pipe' "

/-- Line 114. -/
def qaMsg : String :=
  "No 'Qa' column was found. Make sure you have the flow rates of the pipes under a column named 'Qa' "

/-- Line 118. -/
def lengthMsg : String :=
  "No 'length' column was found. Make sure you have the lengths of the pipes under a column named 'length' "

/-- Line 120. -/
def diameterMsg : String :=
  "No 'diameter' column was found. Make sure you have the Diameter of the pipes under a column named 'diameter' "

/-- Line 122. -/
def fMsg : String :=
  "No 'f' column was found. Make sure you have the friction factor(f) of the pipes under a column named 'f' "

/-- Line 124. -/
def cMsg : String :=
  "No 'C' column was found. Make sure you have the Hazen Williams's coefficient(C) of the pipes under a column named 'C'"

/-- Line 130. -/
def kMsg : String :=
  "No 'K' column was found. Make sure you have the K values of the pipes under a column named 'K' "

/-- Lines 106-137, for one loop.  `df['Qa'].astype(float)` at line 109 runs
before the explicit column checks, so a missing `Qa` column surfaces as a
pandas `KeyError` and the `elif 'Qa' not in df.columns` branch at line 113 is
unreachable.  The `astype` coercions of lines 126-137 touch columns whose
presence was already checked, so they raise nothing here (cell values are
already numeric in this embedding). -/
def validateLoop (Kflag : Bool) (eq : Equation) (lp : RawLoop) : Except PNError Unit :=
  if "Qa" ∉ lp.cols then .error (.keyError "Qa")
  else if "pipe" ∉ lp.cols then .error (.valueError pipeMsg)
  else if !Kflag then
    if "length" ∉ lp.cols then .error (.valueError lengthMsg)
    else if "diameter" ∉ lp.cols then .error (.valueError diameterMsg)
    else if eq = .darcy ∧ "f" ∉ lp.cols then .error (.valueError fMsg)
    else if eq = .hazen ∧ "C" ∉ lp.cols then .error (.valueError cMsg)
    else .ok ()
  else
    if "K" ∉ lp.cols then .error (.valueError kMsg)
    else .ok ()

/-- The `for lp in loops:` loop of lines 105-141, kept to its validation
effect: the first offending loop's error aborts the call. -/
def validateLoops (Kflag : Bool) (eq : Equation) : List RawLoop → Except PNError Unit
  | [] => .ok ()
  | lp :: rest => do
      let _ ← validateLoop Kflag eq lp
      validateLoops Kflag eq rest

/-- One pipe during iteration: the DataFrame row together with the columns
`Qnew` (line 140), `hl` (line 169-173) and `hl/Qnew` (line 176) the solver
adds to it.  `hl` and `hlQ` are written in every pass before they are ever
read, so their initial value is immaterial. -/
structure PipeState where
  pipe : String
  length : Option ℚ
  diameter : Option ℚ
  f : Option ℚ
  C : Option ℚ
  K : Option ℚ
  Qa : ℚ
  Qnew : ℚ
  hl : ℚ
  hlQ : ℚ
deriving DecidableEq

/-- One entry of `df_list`: `{'name': ..., 'df': ...}`. -/
structure LoopState where
  name : String
  pipes : List PipeState
deriving DecidableEq

/-- Lines 106-141: build the working frame; line 140 copies `Qa` to `Qnew`. -/
def ingestPipe (r : RawPipe) : PipeState :=
  { pipe := r.pipe.getD ""
    length := r.length
    diameter := r.diameter
    f := r.f
    C := r.C
    K := r.K
    Qa := r.Qa.getD 0
    Qnew := r.Qa.getD 0
    hl := 0
    hlQ := 0 }

/-- Build one `df_list` entry from one `loops` entry. -/
def ingestLoop (lp : RawLoop) : LoopState :=
  { name := lp.name, pipes := lp.rows.map ingestPipe }

/-- The magnitude part of `head_loss` (lines 149-163): `hl = |d|**n` scaled by
the branch of the mode in use.  `pow` stands for `math.pow`. -/
def hl_mag (pow : ℚ → ℚ → ℚ) (eq : Equation) (Kflag : Bool)
    (a b c d : ℚ) : ℚ :=
  let hl := pow |d| (exponent eq)
  if !Kflag ∧ eq = .darcy then
    hl * ((8 * a * c) / (9.81 * pow 3.143 2 * pow b 5))
  else if !Kflag ∧ eq = .hazen then
    hl * ((10.67 * a) / (pow c (exponent eq) * pow b 4.87))
  else
    hl * c

/-- Lines 149-165: the signed head loss; `return hl if d > 0 else -hl`. -/
def head_loss (pow : ℚ → ℚ → ℚ) (eq : Equation) (Kflag : Bool)
    (a b c d : ℚ) : ℚ :=
  if d > 0 then hl_mag pow eq Kflag a b c d else -(hl_mag pow eq Kflag a b c d)

/-- Lines 167-173: the head loss of one row; the argument triple handed to
`head_loss` depends on the mode exactly as the three `apply` calls do. -/
def pipeHl (pow : ℚ → ℚ → ℚ) (eq : Equation) (Kflag : Bool)
    (p : PipeState) : ℚ :=
  if !Kflag ∧ eq = .darcy then
    head_loss pow eq Kflag (p.length.getD 0) (p.diameter.getD 0) (p.f.getD 0) p.Qnew
  else if !Kflag ∧ eq = .hazen then
    head_loss pow eq Kflag (p.length.getD 0) (p.diameter.getD 0) (p.C.getD 0) p.Qnew
  else
    head_loss pow eq Kflag 1 1 (p.K.getD 0) p.Qnew

/-- Lines 167-176: fill the `hl` column and the `hl/Qnew` column
`abs(hl / Qnew)`. -/
def computeHl (pow : ℚ → ℚ → ℚ) (eq : Equation) (Kflag : Bool)
    (lp : LoopState) : LoopState :=
  { lp with
    pipes := lp.pipes.map fun p =>
      { p with hl := pipeHl pow eq Kflag p, hlQ := |pipeHl pow eq Kflag p / p.Qnew| } }

/-- Line 179: `hl_sum = sum(df['df']['hl'])`. -/
def sumHl (lp : LoopState) : ℚ :=
  (lp.pipes.map fun p => p.hl).sum

/-- Line 180: `hl_Qnew_sum = sum(df['df']['hl/Qnew'])`. -/
def sumHlQ (lp : LoopState) : ℚ :=
  (lp.pipes.map fun p => p.hlQ).sum

/-- Line 183: `q = -hl_sum/(1.85*hl_Qnew_sum)` — the divisor constant 1.85 is
the same for both equations. -/
def loopCorrection (lp : LoopState) : ℚ :=
  -(sumHl lp) / (1.85 * sumHlQ lp)

/-- Lines 178-184: `q_list`, one `{'name': ..., 'q': ...}` per loop, in the
order of `df_list`. -/
def corrections (st : List LoopState) : List (String × ℚ) :=
  st.map fun lp => (lp.name, loopCorrection lp)

/-- Lines 194-198: the `for com_p in pipes_in_common_loops:` search keeps
overwriting `common_p`, so the LAST declaration with a matching name wins. -/
def findCommon (common : List CommonPipe) (pname : String) : Option CommonPipe :=
  common.foldl (fun acc cp => if cp.name = pname then some cp else acc) none

/-- Lines 191-212, `correct_rate`: add the own loop's correction, then for a
pipe declared common subtract, for every other loop of the (last matching)
declaration, the `q` of every `q_list` entry with that loop's name. -/
def correct_rate (common : List CommonPipe) (qList : List (String × ℚ))
    (dfName : String) (rowPipe : String) (rowQnew dfq : ℚ) : ℚ :=
  let Qnew := rowQnew + dfq
  if common ≠ [] ∧ rowPipe ∈ common.map (fun cp => cp.name) then
    match findCommon common rowPipe with
    | none => Qnew
    | some cp =>
        let others := cp.loops.filter fun ln => ln ≠ dfName
        others.foldl
          (fun Q ln => qList.foldl (fun Q q => if ln = q.1 then Q - q.2 else Q) Q)
          Qnew
  else Qnew

/-- Lines 222-223: `zip(df_list, q_list)` is positional, and every pipe's
`Qnew` column is rewritten through `correct_rate`. -/
def updateStep (common : List CommonPipe) (qList : List (String × ℚ))
    (st : List LoopState) : List LoopState :=
  (st.zip qList).map fun x =>
    { x.1 with
      pipes := x.1.pipes.map fun p =>
        { p with Qnew := correct_rate common qList x.1.name p.pipe p.Qnew x.2.2 } }

/-- The outcome of the `while True:` loop: whether it left through the
convergence break (line 220) or the budget break (line 227), the `df_list`
reached, and (ghost, for the resource bound) how many flow updates ran. -/
structure IterOut where
  converged : Bool
  state : List LoopState
  updates : Nat
deriving DecidableEq

/-- Lines 145-229.  One recursive call is one pass of the `while` loop; the
fuel counts the remaining passes the budget check still lets through, so the
top-level call uses fuel `max_iter - 1` (the counter starts at 1 and the
break fires once `iterations >= max_iter`, after the update of that pass). -/
def loopGo (pow : ℚ → ℚ → ℚ) (eq : Equation) (Kflag : Bool)
    (common : List CommonPipe) (error : ℚ) :
    Nat → Nat → List LoopState → IterOut
  | fuel, updates, st =>
    let st1 := st.map (computeHl pow eq Kflag)
    let qs := corrections st1
    if qs.all fun q => |q.2| < error then
      ⟨true, st1, updates⟩
    else
      let st2 := updateStep common qs st1
      match fuel with
      | 0 => ⟨false, st2, updates + 1⟩
      | fuel' + 1 => loopGo pow eq Kflag common error fuel' (updates + 1) st2

/-- Round-half-to-even to an integer, Python's `round` on an exact value. -/
def rhalfEven (x : ℚ) : ℤ :=
  let n := ⌊x⌋
  let r := x - n
  if r < 1/2 then n
  else if r > 1/2 then n + 1
  else if n % 2 = 0 then n else n + 1

/-- Python's `round(x, 4)` (lines 233-235), exactly, on `ℚ`. -/
def round4 (x : ℚ) : ℚ :=
  (rhalfEven (x * 10000) : ℚ) / 10000

/-- Lines 232-235: the three computed columns are rounded to 4 decimals
(`Qa` stays as coerced, unrounded). -/
def roundLoop (lp : LoopState) : LoopState :=
  { lp with
    pipes := lp.pipes.map fun p =>
      { p with Qnew := round4 p.Qnew, hl := round4 p.hl, hlQ := round4 p.hlQ } }

/-- Line 243: the literal value returned instead of the tables when the
budget is exhausted (`str(max_iter)` interpolated). -/
def noConvMsg (max_iter : Nat) : String :=
  "No convergence after " ++ toString max_iter ++
    " iterations. You can increase the number of iterations by modifying the 'max_iter' parameter in the function argument"

/-- The two possible return values of `pipe_network` (lines 241 and 243): a
list of per-loop tables, or the plain string message. -/
inductive PNResult where
  | tables (out : List LoopState)
  | message (s : String)
deriving DecidableEq

deriving instance DecidableEq for Except

/-- `pipe_network(loops, equation, pipes_in_common_loops, K, error, max_iter)`
(lines 4-243): validate every loop, build the working frames, iterate, and
either round and return the tables or return the non-convergence string. -/
def pipe_network (pow : ℚ → ℚ → ℚ) (loops : List RawLoop) (eq : Equation)
    (common : List CommonPipe) (Kflag : Bool) (error : ℚ) (max_iter : Nat) :
    Except PNError PNResult :=
  match validateLoops Kflag eq loops with
  | .error e => .error e
  | .ok _ =>
      let st0 := loops.map ingestLoop
      let r := loopGo pow eq Kflag common error (max_iter - 1) 0 st0
      if r.converged then .ok (.tables (r.state.map roundLoop))
      else .ok (.message (noConvMsg max_iter))

/-- Exact integer power, the value of `math.pow` at the natural exponents the
Darcy-Weisbach and lumped-K paths use (2 and 5). -/
def powNat (x e : ℚ) : ℚ :=
  x ^ e.num.toNat

/-!
IEEE special values.  The `ℚ` model above totalises division (`x / 0 = 0`),
while Python/numpy division of floats by zero yields `inf` or `nan` and
raises nothing.  To settle the behaviour of the solver on a pipe whose flow
is exactly zero, the per-iteration computation is repeated below over a
value domain `FVal` that carries `nan` and signed `inf` with IEEE-754
propagation rules (finite values stay exact rationals).
-/

/-- A double: a finite (exact) value, a signed infinity, or `nan`. -/
inductive FVal where
  | fin (q : ℚ)
  | inf (pos : Bool)
  | nan
deriving DecidableEq

namespace FVal

/-- IEEE negation. -/
def neg : FVal → FVal
  | fin q => fin (-q)
  | inf s => inf !s
  | nan => nan

/-- IEEE absolute value. -/
def fabs : FVal → FVal
  | fin q => fin |q|
  | inf _ => inf true
  | nan => nan

/-- IEEE addition: `nan` absorbs, opposite infinities give `nan`. -/
def add : FVal → FVal → FVal
  | nan, _ => nan
  | _, nan => nan
  | inf s, inf t => if s = t then inf s else nan
  | inf s, fin _ => inf s
  | fin _, inf t => inf t
  | fin a, fin b => fin (a + b)

/-- IEEE subtraction. -/
def sub (x y : FVal) : FVal :=
  add x (neg y)

/-- IEEE multiplication: `nan` absorbs, `0 * inf = nan`. -/
def mul : FVal → FVal → FVal
  | nan, _ => nan
  | _, nan => nan
  | inf s, inf t => inf (s = t)
  | inf s, fin b => if b = 0 then nan else if 0 < b then inf s else inf !s
  | fin a, inf t => if a = 0 then nan else if 0 < a then inf t else inf !t
  | fin a, fin b => fin (a * b)

/-- IEEE division: `nan` absorbs, `inf/inf = nan`, `0/0 = nan`, a nonzero
finite value over zero is a signed infinity (zeros treated as `+0`, the only
zero the exact model produces). -/
def div : FVal → FVal → FVal
  | nan, _ => nan
  | _, nan => nan
  | inf _, inf _ => nan
  | inf s, fin b => if b = 0 then inf s else if 0 < b then inf s else inf !s
  | fin _, inf _ => fin 0
  | fin a, fin b =>
      if b = 0 then (if a = 0 then nan else if 0 < a then inf true else inf false)
      else fin (a / b)

/-- IEEE comparison `x < y`: any comparison against `nan` is false. -/
def flt : FVal → FVal → Bool
  | nan, _ => false
  | _, nan => false
  | inf s, inf t => !s && t
  | inf s, fin _ => !s
  | fin _, inf t => t
  | fin a, fin b => a < b

end FVal

/-- `math.pow` over `FVal` at the natural exponents the Darcy/lumped paths
use (even exponents only, so an infinity of either sign maps to `+inf`);
`math.pow(nan, n) = nan` for a nonzero exponent. -/
def fpowF (x : FVal) (e : ℚ) : FVal :=
  match x with
  | .fin q => .fin (q ^ e.num.toNat)
  | .inf _ => .inf true
  | .nan => .nan

/-- A pipe row over `FVal`, the counterpart of `PipeState`. -/
structure PipeStateF where
  pipe : String
  length : Option FVal
  diameter : Option FVal
  f : Option FVal
  C : Option FVal
  K : Option FVal
  Qa : FVal
  Qnew : FVal
  hl : FVal
  hlQ : FVal
deriving DecidableEq

/-- One `df_list` entry over `FVal`. -/
structure LoopStateF where
  name : String
  pipes : List PipeStateF
deriving DecidableEq

/-- Lines 149-165 over `FVal` (`fpow` stands for `math.pow`). -/
def head_lossF (fpow : FVal → ℚ → FVal) (eq : Equation) (Kflag : Bool)
    (a b c d : FVal) : FVal :=
  let hl := fpow (d.fabs) (exponent eq)
  let hl :=
    if !Kflag ∧ eq = .darcy then
      hl.mul (((FVal.fin 8).mul a |>.mul c).div
        (((FVal.fin 9.81).mul (fpow (.fin 3.143) 2)).mul (fpow b 5)))
    else if !Kflag ∧ eq = .hazen then
      hl.mul (((FVal.fin 10.67).mul a).div ((fpow c (exponent eq)).mul (fpow b 4.87)))
    else
      hl.mul c
  if (FVal.fin 0).flt d then hl else hl.neg

/-- Lines 167-173 over `FVal`. -/
def pipeHlF (fpow : FVal → ℚ → FVal) (eq : Equation) (Kflag : Bool)
    (p : PipeStateF) : FVal :=
  if !Kflag ∧ eq = .darcy then
    head_lossF fpow eq Kflag (p.length.getD (.fin 0)) (p.diameter.getD (.fin 0)) (p.f.getD (.fin 0)) p.Qnew
  else if !Kflag ∧ eq = .hazen then
    head_lossF fpow eq Kflag (p.length.getD (.fin 0)) (p.diameter.getD (.fin 0)) (p.C.getD (.fin 0)) p.Qnew
  else
    head_lossF fpow eq Kflag (.fin 1) (.fin 1) (p.K.getD (.fin 0)) p.Qnew

/-- Lines 167-176 over `FVal`. -/
def computeHlF (fpow : FVal → ℚ → FVal) (eq : Equation) (Kflag : Bool)
    (lp : LoopStateF) : LoopStateF :=
  { lp with
    pipes := lp.pipes.map fun p =>
      { p with hl := pipeHlF fpow eq Kflag p
               hlQ := (pipeHlF fpow eq Kflag p |>.div p.Qnew).fabs } }

/-- Line 179 over `FVal`; Python's `sum` starts from 0. -/
def sumHlF (lp : LoopStateF) : FVal :=
  (lp.pipes.map fun p => p.hl).foldl FVal.add (.fin 0)

/-- Line 180 over `FVal`. -/
def sumHlQF (lp : LoopStateF) : FVal :=
  (lp.pipes.map fun p => p.hlQ).foldl FVal.add (.fin 0)

/-- Line 183 over `FVal`: `-hl_sum/(1.85*hl_Qnew_sum)`. -/
def loopCorrectionF (lp : LoopStateF) : FVal :=
  (sumHlF lp).neg.div ((FVal.fin 1.85).mul (sumHlQF lp))

/-- Lines 178-184 over `FVal`. -/
def correctionsF (st : List LoopStateF) : List (String × FVal) :=
  st.map fun lp => (lp.name, loopCorrectionF lp)

/-- Lines 191-212 over `FVal`. -/
def correct_rateF (common : List CommonPipe) (qList : List (String × FVal))
    (dfName : String) (rowPipe : String) (rowQnew dfq : FVal) : FVal :=
  let Qnew := rowQnew.add dfq
  if common ≠ [] ∧ rowPipe ∈ common.map (fun cp => cp.name) then
    match findCommon common rowPipe with
    | none => Qnew
    | some cp =>
        let others := cp.loops.filter fun ln => ln ≠ dfName
        others.foldl
          (fun Q ln => qList.foldl (fun Q q => if ln = q.1 then Q.sub q.2 else Q) Q)
          Qnew
  else Qnew

/-- Lines 222-223 over `FVal`. -/
def updateStepF (common : List CommonPipe) (qList : List (String × FVal))
    (st : List LoopStateF) : List LoopStateF :=
  (st.zip qList).map fun x =>
    { x.1 with
      pipes := x.1.pipes.map fun p =>
        { p with Qnew := correct_rateF common qList x.1.name p.pipe p.Qnew x.2.2 } }

/-- The `while` loop's outcome over `FVal`. -/
structure IterOutF where
  converged : Bool
  state : List LoopStateF
  updates : Nat
deriving DecidableEq

/-- Lines 145-229 over `FVal`: identical control flow to `loopGo`, with the
convergence test `abs(q) < error` evaluated by IEEE comparison (false on
`nan`). -/
def loopGoF (fpow : FVal → ℚ → FVal) (eq : Equation) (Kflag : Bool)
    (common : List CommonPipe) (error : ℚ) :
    Nat → Nat → List LoopStateF → IterOutF
  | fuel, updates, st =>
    let st1 := st.map (computeHlF fpow eq Kflag)
    let qs := correctionsF st1
    if qs.all fun q => q.2.fabs.flt (.fin error) then
      ⟨true, st1, updates⟩
    else
      let st2 := updateStepF common qs st1
      match fuel with
      | 0 => ⟨false, st2, updates + 1⟩
      | fuel' + 1 => loopGoF fpow eq Kflag common error fuel' (updates + 1) st2

/-- Lines 232-235 over `FVal` (`round` of a non-finite value is itself). -/
def roundLoopF (lp : LoopStateF) : LoopStateF :=
  { lp with
    pipes := lp.pipes.map fun p =>
      { p with
        Qnew := match p.Qnew with | .fin q => .fin (round4 q) | v => v
        hl := match p.hl with | .fin q => .fin (round4 q) | v => v
        hlQ := match p.hlQ with | .fin q => .fin (round4 q) | v => v } }

/-- The return value of the solver over `FVal`. -/
inductive PNResultF where
  | tablesF (out : List LoopStateF)
  | messageF (s : String)
deriving DecidableEq

/-- Lines 143-243 over `FVal`, entered with the already validated and
ingested `df_list` (validation looks only at column names and is shared with
the `ℚ` model). -/
def pipe_networkF (fpow : FVal → ℚ → FVal) (eq : Equation) (Kflag : Bool)
    (common : List CommonPipe) (error : ℚ) (max_iter : Nat)
    (st0 : List LoopStateF) : PNResultF :=
  let r := loopGoF fpow eq Kflag common error (max_iter - 1) 0 st0
  if r.converged then .tablesF (r.state.map roundLoopF)
  else .messageF (noConvMsg max_iter)

/-!
Concrete networks used by the witnesses and counterexamples below.
-/

/-- A one-loop, one-pipe lumped-K network: `K = 1`, assumed flow `1`. -/
def netK1 : RawLoop :=
  ⟨"Loop A", ["pipe", "K", "Qa"], [⟨some "P-1", none, none, none, none, some 1, some 1⟩]⟩

/-- A one-loop lumped-K network whose first pipe has `K = 0` (the solver
accepts it): pipes `(K, Qa) = (0, 1)` and `(1, -1)`. -/
def netC8 : RawLoop :=
  ⟨"Loop A", ["pipe", "K", "Qa"],
    [⟨some "P-1", none, none, none, none, some 0, some 1⟩,
     ⟨some "P-2", none, none, none, none, some 1, some (-1)⟩]⟩

/-- A loop whose table has a `pipe` column but no `Qa` column. -/
def lpNoQa : RawLoop :=
  ⟨"Loop A", ["pipe"], [⟨some "P-1", none, none, none, none, none, none⟩]⟩

/-- A loop whose table has a `Qa` column but no `pipe` column. -/
def lpNoPipe : RawLoop :=
  ⟨"Loop B", ["Qa"], [⟨none, none, none, none, none, none, some 1⟩]⟩

/-- One ingested lumped-K pipe with assumed flow exactly `0` and `K = 1`,
over `FVal`. -/
def pF : PipeStateF :=
  ⟨"P-1", none, none, none, none, some (.fin 1), .fin 0, .fin 0, .fin 0, .fin 0⟩

/-- The ingested one-loop state whose only pipe has zero flow. -/
def stC5 : List LoopStateF := [⟨"Loop A", [pF]⟩]

/-!
Claim C1: the loop correction factor.
-/

/-- C1: in every iteration the correction factor of a loop is
`-S_hl / (1.85 * S_hlQ)`, where `S_hl` sums the signed head losses and
`S_hlQ` the `|hl/Q|` values of the loop's pipes, with the constant divisor
1.85 for either equation kind — including Darcy-Weisbach, whose head-loss
exponent is 2. -/
theorem C1_correction_formula (pow : ℚ → ℚ → ℚ) (eq : Equation) (Kflag : Bool)
    (lp : LoopState) :
    loopCorrection (computeHl pow eq Kflag lp)
      = -((lp.pipes.map fun p => pipeHl pow eq Kflag p).sum)
        / (1.85 * ((lp.pipes.map fun p => |pipeHl pow eq Kflag p / p.Qnew|).sum))
    ∧ exponent .darcy = 2 := by
  constructor
  · simp [loopCorrection, sumHl, sumHlQ, computeHl, List.map_map, Function.comp_def]
  · rfl

/-!
Claim C7: termination and the bound on the number of flow updates.
-/

/-- Every pass of the loop either stops or spends one unit of fuel, so the
number of flow updates is at most `fuel + 1`. -/
theorem loopGo_updates_le (pow : ℚ → ℚ → ℚ) (eq : Equation) (Kflag : Bool)
    (common : List CommonPipe) (error : ℚ) :
    ∀ fuel u st, (loopGo pow eq Kflag common error fuel u st).updates ≤ u + fuel + 1 := by
  intro fuel
  induction fuel with
  | zero =>
      intro u st
      rw [loopGo]
      dsimp only
      split
      · dsimp only
        omega
      · dsimp only
        omega
  | succ f ih =>
      intro u st
      rw [loopGo]
      dsimp only
      split
      · dsimp only
        omega
      · exact le_trans (ih (u + 1) _) (by omega)

/-- C7 (amended): every solve terminates, and the number of flow updates is
at most `max 1 max_iter` — the convergence break does no update in the
converging pass, and the budget break at `iterations >= max_iter` always lets
the first pass update, so `max_iter = 0` still performs one update. -/
theorem C7_update_bound (pow : ℚ → ℚ → ℚ) (eq : Equation) (Kflag : Bool)
    (common : List CommonPipe) (error : ℚ) (max_iter : Nat) (st : List LoopState) :
    (loopGo pow eq Kflag common error (max_iter - 1) 0 st).updates ≤ max 1 max_iter := by
  have h := loopGo_updates_le pow eq Kflag common error (max_iter - 1) 0 st
  omega

/-- C7 (counterexample): with `max_iter = 0` and a non-converging one-pipe
network the loop still performs one flow update, so the update count is not
bounded by `max_iter` itself. -/
theorem C7_zero_budget_counterexample :
    (loopGo powNat .darcy true [] (1/100000000) (0 - 1) 0 ([netK1].map ingestLoop)).updates = 1
    ∧ ¬ ((loopGo powNat .darcy true [] (1/100000000) (0 - 1) 0 ([netK1].map ingestLoop)).updates ≤ 0) := by
  have h : (loopGo powNat .darcy true [] (1/100000000) (0 - 1) 0 ([netK1].map ingestLoop)).updates = 1 := by
    with_unfolding_all decide
  exact ⟨h, by rw [h]; omega⟩

/-!
Claim C8: the sign of the head loss against the sign of the flow.
-/

/-- The claim's reading of "the sign of the head loss equals the sign of the
corrected flow (both positive or both negative)". -/
def sameSign (h q : ℚ) : Prop :=
  (0 < h ∧ 0 < q) ∨ (h < 0 ∧ q < 0)

/-- C8 (amended): whenever the computed head-loss magnitude is positive, the
signed head loss is positive for positive flow and negative for negative
flow; a pipe with zero head-loss magnitude (for instance `K = 0`) gets head
loss `0` whatever the sign of its flow, so the returned values need not share
signs. -/
theorem C8_head_loss_sign (pow : ℚ → ℚ → ℚ) (eq : Equation) (Kflag : Bool)
    (a b c d : ℚ) (hmag : 0 < hl_mag pow eq Kflag a b c d) :
    (0 < d → 0 < head_loss pow eq Kflag a b c d)
    ∧ (d < 0 → head_loss pow eq Kflag a b c d < 0) := by
  unfold head_loss
  constructor
  · intro hd
    rw [if_pos hd]
    exact hmag
  · intro hd
    rw [if_neg (by linarith)]
    linarith

/-- C8 (witness): a lumped pipe with `K = 1` and flow `2` has positive
magnitude and positive head loss. -/
theorem C8_head_loss_sign_witness :
    0 < hl_mag powNat .darcy true 1 1 1 2 ∧ 0 < head_loss powNat .darcy true 1 1 1 2 := by
  have h : 0 < hl_mag powNat .darcy true 1 1 1 2 := by with_unfolding_all decide
  exact ⟨h, (C8_head_loss_sign powNat .darcy true 1 1 1 2 h).1 (by norm_num)⟩

set_option maxRecDepth 2000 in
/-- C8 (counterexample): the `netC8` run converges (tolerance 3/5, the first
correction is 20/37), and its first pipe is returned with head loss `0` but
corrected flow `1 > 0`: the returned signs are not both positive or both
negative. -/
theorem C8_sign_counterexample :
    pipe_network powNat [netC8] .darcy [] true (3/5) 100
      = .ok (.tables [⟨"Loop A",
        [⟨"P-1", none, none, none, none, some 0, 1, 1, 0, 0⟩,
         ⟨"P-2", none, none, none, none, some 1, -1, -1, -1, 1⟩]⟩])
    ∧ ¬ sameSign 0 1 := by
  constructor
  · with_unfolding_all decide
  · simp only [sameSign]
    norm_num

/-!
Claim C9: determinism.
-/

/-- C9: the solver is a pure function of its arguments — two calls on
identical input (same loops, equation, shared-pipe declarations, K flag,
tolerance and iteration budget, and the same `math.pow`) return identical
results. -/
theorem C9_deterministic (pow pow' : ℚ → ℚ → ℚ) (loops loops' : List RawLoop)
    (eq eq' : Equation) (common common' : List CommonPipe) (Kf Kf' : Bool)
    (err err' : ℚ) (mi mi' : Nat)
    (h1 : pow = pow') (h2 : loops = loops') (h3 : eq = eq') (h4 : common = common')
    (h5 : Kf = Kf') (h6 : err = err') (h7 : mi = mi') :
    pipe_network pow loops eq common Kf err mi
      = pipe_network pow' loops' eq' common' Kf' err' mi' := by
  subst h1 h2 h3 h4 h5 h6 h7
  rfl

/-- C9 (witness): the two calls on the concrete `netK1` input agree. -/
theorem C9_deterministic_witness :
    pipe_network powNat [netK1] .darcy [] true 1 100
      = pipe_network powNat [netK1] .darcy [] true 1 100 :=
  C9_deterministic powNat powNat [netK1] [netK1] .darcy .darcy [] [] true true
    1 1 100 100 rfl rfl rfl rfl rfl rfl rfl

/-!
Claim C4: missing `pipe`/`Qa` columns.
-/

/-- Whether `pat` occurs as a contiguous run inside the second list. -/
def hasInfix (pat : List Char) : List Char → Bool
  | [] => pat.isEmpty
  | c :: rest => pat.isPrefixOf (c :: rest) || hasInfix pat rest

/-- The claim's reading of a MissingField failure: the error carries a
message (or payload) in which both the loop's name and the absent field's
name appear. -/
def mentionsLoopAndField : PNError → String → String → Bool
  | .valueError msg, lname, fld => hasInfix lname.toList msg.toList && hasInfix fld.toList msg.toList
  | .keyError c, lname, fld => hasInfix lname.toList c.toList && hasInfix fld.toList c.toList

/-- C4 (counterexample): a loop named "Loop A" without a `Qa` column fails
with the pandas `KeyError` of the coercion at line 109 — not the explicit
MissingField-style `ValueError` — and the error names no loop; a loop named
"Loop B" without a `pipe` column fails with the `ValueError` of line 112,
whose fixed message names the field but not the loop. -/
theorem C4_missing_field_counterexample :
    pipe_network powNat [lpNoQa] .hazen [] false 1 100 = .error (.keyError "Qa")
    ∧ mentionsLoopAndField (.keyError "Qa") "Loop A" "Qa" = false
    ∧ pipe_network powNat [lpNoPipe] .hazen [] false 1 100 = .error (.valueError pipeMsg)
    ∧ mentionsLoopAndField (.valueError pipeMsg) "Loop B" "pipe" = false := by
  refine ⟨?_, ?_, ?_, ?_⟩ <;> with_unfolding_all decide

/-- C4 (amended): a loop whose table lacks `Qa` makes the solver fail, before
any iteration, with the `KeyError` carrying only the column name `Qa` (the
float coercion of line 109 precedes the explicit checks, so the dedicated
`Qa` message of line 114 is unreachable); with `Qa` present but `pipe`
absent it fails with the fixed `ValueError` message that names the column but
not the loop. -/
theorem C4_validation_errors (pow : ℚ → ℚ → ℚ) (eq : Equation) (Kflag : Bool)
    (common : List CommonPipe) (error : ℚ) (max_iter : Nat)
    (lp : RawLoop) (rest : List RawLoop) :
    ("Qa" ∉ lp.cols →
      pipe_network pow (lp :: rest) eq common Kflag error max_iter
        = .error (.keyError "Qa"))
    ∧ ("Qa" ∈ lp.cols → "pipe" ∉ lp.cols →
      pipe_network pow (lp :: rest) eq common Kflag error max_iter
        = .error (.valueError pipeMsg)) := by
  constructor
  · intro h
    simp [pipe_network, validateLoops, validateLoop, h, Bind.bind, Except.bind]
  · intro h1 h2
    simp [pipe_network, validateLoops, validateLoop, h1, h2, Bind.bind, Except.bind]

/-- C4 (witness): the two branches of `C4_validation_errors` at the concrete
loops `lpNoQa` and `lpNoPipe`. -/
theorem C4_validation_errors_witness :
    pipe_network powNat [lpNoQa] .hazen [] false 1 100 = .error (.keyError "Qa")
    ∧ pipe_network powNat [lpNoPipe] .hazen [] false 1 100 = .error (.valueError pipeMsg) :=
  ⟨(C4_validation_errors powNat .hazen false [] 1 100 lpNoQa []).1 (by decide),
   (C4_validation_errors powNat .hazen false [] 1 100 lpNoPipe []).2 (by decide) (by decide)⟩

/-!
Claim C6: what non-convergence returns.
-/

/-- C6 (counterexample): a non-converging run (one pipe, `K = 1`, flow `1`,
tolerance `1e-8`, budget 5) returns the plain string of line 243 — the
iteration count is interpolated into prose, not carried structurally — so the
non-convergence result is exactly a string message. -/
theorem C6_string_result_counterexample :
    pipe_network powNat [netK1] .darcy [] true (1/100000000) 5 = .ok (.message (noConvMsg 5))
    ∧ noConvMsg 5 = "No convergence after 5 iterations. You can increase the number of iterations by modifying the 'max_iter' parameter in the function argument" := by
  constructor
  · with_unfolding_all decide
  · rfl

/-- C6 (amended): when validation passes and the iteration budget runs out
without convergence, the solver returns `Except.ok` of the fixed English
string with `max_iter` interpolated — never the unconverged numeric table,
but also not a structurally tagged alternative: success is a list and
failure a string, and the iteration count can only be read out of the
string's text. -/
theorem C6_nonconvergence_message (pow : ℚ → ℚ → ℚ) (loops : List RawLoop)
    (eq : Equation) (common : List CommonPipe) (Kflag : Bool) (error : ℚ) (max_iter : Nat)
    (hval : validateLoops Kflag eq loops = .ok ())
    (hnc : (loopGo pow eq Kflag common error (max_iter - 1) 0 (loops.map ingestLoop)).converged = false) :
    pipe_network pow loops eq common Kflag error max_iter = .ok (.message (noConvMsg max_iter)) := by
  unfold pipe_network
  rw [hval]
  simp [hnc]

/-- C6 (witness): the amended theorem at `netK1`, tolerance `1e-8`,
budget 2. -/
theorem C6_nonconvergence_message_witness :
    pipe_network powNat [netK1] .darcy [] true (1/100000000) 2 = .ok (.message (noConvMsg 2)) :=
  C6_nonconvergence_message powNat [netK1] .darcy [] true (1/100000000) 2 (by decide)
    (by with_unfolding_all decide)

/-!
Claim C10: immediate convergence returns the rounded assumed flows.
-/

/-- C10: if every loop's first-pass correction is already below the
tolerance, the run converges in its first pass — the convergence check of
line 219 precedes the update of lines 222-223, so no correction is applied —
and every pipe's returned corrected flow is its assumed flow rounded to 4
decimals.  The hypothesis `hQ` (no zero flow, no zero `S_hlQ`) keeps the run
inside the regime where the exact `ℚ` model agrees with the source's float
arithmetic (otherwise the source would produce `nan` corrections and never
converge, see claim C5). -/
theorem C10_immediate_convergence (pow : ℚ → ℚ → ℚ) (loops : List RawLoop)
    (eq : Equation) (common : List CommonPipe) (Kflag : Bool) (error : ℚ) (max_iter : Nat)
    (hval : validateLoops Kflag eq loops = .ok ())
    (hQ : ∀ lp ∈ (loops.map ingestLoop).map (computeHl pow eq Kflag),
      (∀ p ∈ lp.pipes, p.Qnew ≠ 0) ∧ sumHlQ lp ≠ 0)
    (hconv : ((corrections ((loops.map ingestLoop).map (computeHl pow eq Kflag))).all
      fun q => |q.2| < error) = true) :
    pipe_network pow loops eq common Kflag error max_iter
      = .ok (.tables (((loops.map ingestLoop).map (computeHl pow eq Kflag)).map roundLoop))
    ∧ ((((loops.map ingestLoop).map (computeHl pow eq Kflag)).map roundLoop).map
        fun lp => lp.pipes.map fun p => p.Qnew)
      = loops.map fun lp => lp.rows.map fun r => round4 (r.Qa.getD 0) := by
  constructor
  · unfold pipe_network
    rw [hval]
    have h2 : loopGo pow eq Kflag common error (max_iter - 1) 0 (loops.map ingestLoop)
        = ⟨true, ((loops.map ingestLoop).map (computeHl pow eq Kflag)), 0⟩ := by
      rw [loopGo]
      simp only [hconv]
      rfl
    simp [h2]
  · simp [roundLoop, computeHl, ingestLoop, ingestPipe, List.map_map, Function.comp_def]

/-- C10 (witness): `netK1` with tolerance 1 converges in the first pass
(its correction is `-20/37`) and returns corrected flow `round4 1`. -/
theorem C10_immediate_convergence_witness :
    pipe_network powNat [netK1] .darcy [] true 1 100
      = .ok (.tables ((([netK1].map ingestLoop).map (computeHl powNat .darcy true)).map roundLoop))
    ∧ (((([netK1].map ingestLoop).map (computeHl powNat .darcy true)).map roundLoop).map
        fun lp => lp.pipes.map fun p => p.Qnew)
      = [netK1].map fun lp => lp.rows.map fun r => round4 (r.Qa.getD 0) :=
  C10_immediate_convergence powNat [netK1] .darcy [] true 1 100 (by decide)
    (by with_unfolding_all decide) (by with_unfolding_all decide)

/-!
Claim C2: the flow update and the cross-loop correction.
-/

/-- A fold that overwrites its accumulator only on a matching name leaves the
accumulator alone when nothing matches. -/
theorem foldl_overwrite_no_match (p : String) (l : List CommonPipe)
    (h : l.filter (fun cp => cp.name = p) = []) (acc : Option CommonPipe) :
    l.foldl (fun acc cp => if cp.name = p then some cp else acc) acc = acc := by
  induction l generalizing acc with
  | nil => rfl
  | cons cp rest ih =>
      by_cases hc : cp.name = p
      · simp [List.filter_cons, hc] at h
      · simp only [List.foldl_cons, if_neg hc]
        refine ih ?_ acc
        simpa [List.filter_cons, hc] using h

/-- When exactly one declaration carries the pipe's name, the
keep-the-last-match search of lines 194-198 finds it. -/
theorem findCommon_singleton (common : List CommonPipe) (p : String) (decl : CommonPipe)
    (h : common.filter (fun cp => cp.name = p) = [decl]) :
    findCommon common p = some decl := by
  unfold findCommon
  induction common with
  | nil => simp at h
  | cons cp rest ih =>
      by_cases hc : cp.name = p
      · have h2 : cp = decl ∧ rest.filter (fun cp => cp.name = p) = [] := by
          simpa [List.filter_cons, hc] using h
        simp only [List.foldl_cons, if_pos hc]
        rw [foldl_overwrite_no_match p rest h2.2]
        exact congrArg some h2.1
      · simp only [List.foldl_cons, if_neg hc]
        refine ih ?_
        simpa [List.filter_cons, hc] using h

/-- The inner loop of lines 207-210: for one other loop's name, subtract
every matching entry of `q_list`. -/
theorem foldl_sub_matching (ln : String) (qList : List (String × ℚ)) (Q : ℚ) :
    qList.foldl (fun Q q => if ln = q.1 then Q - q.2 else Q) Q
      = Q - ((qList.filter fun x => ln = x.1).map Prod.snd).sum := by
  induction qList generalizing Q with
  | nil => simp
  | cons q rest ih =>
      by_cases hq : ln = q.1
      · have hf : List.filter (fun x => ln = x.1) (q :: rest)
            = q :: List.filter (fun x => ln = x.1) rest := by
          simp [List.filter_cons, hq]
        simp only [List.foldl_cons, if_pos hq, hf, List.map_cons, List.sum_cons]
        rw [ih]
        ring
      · have hf : List.filter (fun x => ln = x.1) (q :: rest)
            = List.filter (fun x => ln = x.1) rest := by
          simp [List.filter_cons, hq]
        simp only [List.foldl_cons, if_neg hq, hf]
        exact ih Q

/-- The outer loop of lines 207-210: subtract, for every other loop of the
declaration, the sum of its matching `q_list` entries. -/
theorem foldl_sub_loops (qList : List (String × ℚ)) (others : List String) (Q : ℚ) :
    others.foldl
      (fun Q ln => qList.foldl (fun Q q => if ln = q.1 then Q - q.2 else Q) Q) Q
      = Q - (others.map fun ln => ((qList.filter fun x => ln = x.1).map Prod.snd).sum).sum := by
  induction others generalizing Q with
  | nil => simp
  | cons ln rest ih =>
      simp only [List.foldl_cons, List.map_cons, List.sum_cons]
      rw [foldl_sub_matching, ih]
      ring

/-- C2: in a non-converging pass every pipe's flow becomes
`Q_old + correction_of_its_own_loop`, and a pipe named in a shared-pipe
declaration additionally has the correction factor of every other loop of
that declaration subtracted, once per other loop.  `hdecl` says the pipe is
named by exactly one declaration and `hq` that each loop name carries exactly
one correction — the uniqueness the spec's data model stipulates (the source
keeps the last matching declaration and sums all same-named `q_list`
entries). -/
theorem C2_flow_update (common : List CommonPipe) (qList : List (String × ℚ))
    (lname pname : String) (Q dfq : ℚ) (decl : CommonPipe) (qf : String → ℚ)
    (hdecl : common.filter (fun cp => cp.name = pname) = [decl])
    (hq : ∀ ln ∈ decl.loops.filter (fun x => x ≠ lname),
      ((qList.filter fun x => ln = x.1).map Prod.snd) = [qf ln]) :
    correct_rate common qList lname pname Q dfq
      = Q + dfq - ((decl.loops.filter fun x => x ≠ lname).map qf).sum
    ∧ (∀ (c2 : List CommonPipe), pname ∉ c2.map (fun cp => cp.name) →
        correct_rate c2 qList lname pname Q dfq = Q + dfq)
    ∧ (∀ (st : List LoopState) (lp : LoopState) (qi : String × ℚ),
        (lp, qi) ∈ st.zip qList →
        ({ lp with pipes := lp.pipes.map fun p =>
            { p with Qnew := correct_rate common qList lp.name p.pipe p.Qnew qi.2 } })
          ∈ updateStep common qList st) := by
  have hmem : decl ∈ common ∧ decl.name = pname := by
    have h1 : decl ∈ common.filter (fun cp => cp.name = pname) := by
      rw [hdecl]; exact List.mem_singleton_self decl
    obtain ⟨h2, h3⟩ := List.mem_filter.mp h1
    exact ⟨h2, by simpa using h3⟩
  refine ⟨?_, ?_, ?_⟩
  · unfold correct_rate
    rw [if_pos ⟨List.ne_nil_of_mem hmem.1, List.mem_map.mpr ⟨decl, hmem.1, hmem.2⟩⟩]
    rw [findCommon_singleton common pname decl hdecl]
    dsimp only
    rw [foldl_sub_loops]
    have hmap : ((decl.loops.filter fun x => x ≠ lname).map
          fun ln => ((qList.filter fun x => ln = x.1).map Prod.snd).sum)
        = (decl.loops.filter fun x => x ≠ lname).map qf :=
      List.map_congr_left fun ln hln => by rw [hq ln hln]; simp
    rw [hmap]
  · intro c2 hc2
    unfold correct_rate
    rw [if_neg]
    intro hcond
    exact hc2 hcond.2
  · intro st lp qi hmem2
    unfold updateStep
    exact List.mem_map_of_mem _ hmem2

/-- C2 (witness): pipe "B-D" shared by loops A and B, with corrections 2
(loop A, its own) and 5 (loop B): updating its flow 10 inside loop A gives
`10 + 2 - 5`. -/
theorem C2_flow_update_witness :
    correct_rate [⟨"B-D", ["Loop A", "Loop B"]⟩] [("Loop A", 2), ("Loop B", 5)]
        "Loop A" "B-D" 10 2
      = 10 + 2 - ((["Loop A", "Loop B"].filter fun x => x ≠ "Loop A").map
          fun ln => if ln = "Loop B" then (5:ℚ) else 0).sum :=
  (C2_flow_update [⟨"B-D", ["Loop A", "Loop B"]⟩] [("Loop A", 2), ("Loop B", 5)]
    "Loop A" "B-D" 10 2 ⟨"B-D", ["Loop A", "Loop B"]⟩
    (fun ln => if ln = "Loop B" then (5:ℚ) else 0)
    (by decide) (by with_unfolding_all decide)).1

/-!
Claim C3: the constant in the explicit Darcy-Weisbach head loss.
-/

/-- C3 (counterexample): at `length = diameter = f = Q = 1` the code's
head-loss value `8 / (9.81 * 3.143^2)` differs from the claimed
`|Q|^2 * (8*L*f) / (9.81 * pi^2 * d^5)`: the source squares the literal
`3.143`, not the mathematical constant pi (which is below 3.141593). -/
theorem C3_pi_counterexample :
    ((head_loss powNat .darcy false 1 1 1 1 : ℚ) : ℝ)
      ≠ |(1:ℝ)| ^ 2 * (8 * 1 * 1) / (9.81 * Real.pi ^ 2 * 1 ^ 5) := by
  have hv : (head_loss powNat .darcy false 1 1 1 1 : ℚ) = 8 / (9.81 * 3.143 ^ 2) := by
    unfold head_loss hl_mag powNat exponent
    norm_num
    simp only [show (2:ℤ).toNat = 2 from rfl]
    norm_num
  rw [hv]
  have hr : |(1:ℝ)| ^ 2 * (8 * 1 * 1) / (9.81 * Real.pi ^ 2 * 1 ^ 5)
      = 8 / (9.81 * Real.pi ^ 2) := by
    norm_num
  rw [hr]
  have hpi : Real.pi < 3.143 := lt_trans Real.pi_lt_d6 (by norm_num)
  have hpi0 : 0 < Real.pi := Real.pi_pos
  have h3 : (0:ℝ) < 9.81 * Real.pi ^ 2 := by positivity
  have h4 : (9.81:ℝ) * Real.pi ^ 2 < 9.81 * 3.143 ^ 2 := by nlinarith
  have h5 : ((8 / (9.81 * 3.143 ^ 2) : ℚ) : ℝ) < 8 / (9.81 * Real.pi ^ 2) := by
    push_cast
    exact div_lt_div_of_pos_left (by norm_num) h3 h4
  exact ne_of_lt h5

/-- C3 (amended): for nonnegative length, friction factor and diameter, the
explicit Darcy-Weisbach head-loss magnitude is
`Q^2 * (8*L*f) / (9.81 * 3.143^2 * d^5)` — the source's formula with the
literal `3.143` in place of pi. -/
theorem C3_darcy_constant (L d f Q : ℚ) (hL : 0 ≤ L) (hf : 0 ≤ f) (hd : 0 ≤ d) :
    |head_loss powNat .darcy false L d f Q|
      = Q ^ 2 * ((8 * L * f) / (9.81 * 3.143 ^ 2 * d ^ 5)) := by
  have hmag : hl_mag powNat .darcy false L d f Q
      = Q ^ 2 * ((8 * L * f) / (9.81 * 3.143 ^ 2 * d ^ 5)) := by
    unfold hl_mag powNat exponent
    norm_num
    simp only [show (2:ℤ).toNat = 2 from rfl, show (5:ℤ).toNat = 5 from rfl, sq_abs]
    ring
  have hnn : 0 ≤ hl_mag powNat .darcy false L d f Q := by
    rw [hmag]
    apply mul_nonneg (sq_nonneg Q)
    apply div_nonneg
    · have := mul_nonneg hL hf
      nlinarith
    · have h5 : (0:ℚ) ≤ d ^ 5 := pow_nonneg hd 5
      nlinarith
  unfold head_loss
  split
  · rw [abs_of_nonneg hnn, hmag]
  · rw [abs_neg, abs_of_nonneg hnn, hmag]

/-- C3 (witness): the amended formula at `L = d = f = 1`, `Q = 2`. -/
theorem C3_darcy_constant_witness :
    |head_loss powNat .darcy false 1 1 1 2|
      = 2 ^ 2 * ((8 * 1 * 1) / (9.81 * 3.143 ^ 2 * 1 ^ 5)) :=
  C3_darcy_constant 1 1 1 2 (by norm_num) (by norm_num) (by norm_num)

/-!
Claim C5: a pipe with exactly zero flow.
-/

/-- The `df_list` after the first pass on `stC5`: the head loss of the
zero-flow pipe is `0`, its `hl/Qnew` is `0/0 = nan`, and the updated flow is
`0 + nan = nan`. -/
def stNan1 : List LoopStateF :=
  [⟨"Loop A", [{ pF with Qnew := .nan, hl := .fin 0, hlQ := .nan }]⟩]

/-- The fixed point the state reaches from the second pass on: every derived
quantity of the pipe is `nan`. -/
def stNan2 : List LoopStateF :=
  [⟨"Loop A", [{ pF with Qnew := .nan, hl := .nan, hlQ := .nan }]⟩]

/-- The first pass on the zero-flow network at fuel 0. -/
theorem C5_pass_zero (err : ℚ) (u : Nat) :
    loopGoF fpowF .darcy true [] err 0 u stC5 = ⟨false, stNan1, u + 1⟩ := by
  rw [loopGoF]
  norm_num [stC5, pF, stNan1, computeHlF, pipeHlF, head_lossF, fpowF, exponent,
    correctionsF, loopCorrectionF, sumHlF, sumHlQF, updateStepF, correct_rateF,
    FVal.fabs, FVal.mul, FVal.div, FVal.flt, FVal.neg, FVal.add,
    show ((2:ℚ).num.toNat) = 2 from rfl]

/-- The first pass on the zero-flow network with fuel to spare. -/
theorem C5_pass_succ (err : ℚ) (f u : Nat) :
    loopGoF fpowF .darcy true [] err (f + 1) u stC5
      = loopGoF fpowF .darcy true [] err f (u + 1) stNan1 := by
  conv_lhs => rw [loopGoF]
  norm_num [stC5, pF, stNan1, computeHlF, pipeHlF, head_lossF, fpowF, exponent,
    correctionsF, loopCorrectionF, sumHlF, sumHlQF, updateStepF, correct_rateF,
    FVal.fabs, FVal.mul, FVal.div, FVal.flt, FVal.neg, FVal.add,
    show ((2:ℚ).num.toNat) = 2 from rfl]

/-- From the all-`nan` state the loop never converges: `abs(nan) < error` is
false in IEEE comparison, whatever the tolerance. -/
theorem C5_stNan2_stuck (err : ℚ) :
    ∀ fuel u, (loopGoF fpowF .darcy true [] err fuel u stNan2).converged = false := by
  intro fuel
  induction fuel with
  | zero => intro u; rfl
  | succ f ih => intro u; exact ih (u + 1)

/-- From `stNan1` the next pass lands in the all-`nan` fixed point. -/
theorem C5_stNan1_stuck (err : ℚ) :
    ∀ fuel u, (loopGoF fpowF .darcy true [] err fuel u stNan1).converged = false := by
  intro fuel
  cases fuel with
  | zero => intro u; rfl
  | succ f => intro u; exact C5_stNan2_stuck err f (u + 1)

/-- The zero-flow network never converges, from the very first pass. -/
theorem C5_never_converges (err : ℚ) :
    ∀ fuel u, (loopGoF fpowF .darcy true [] err fuel u stC5).converged = false := by
  intro fuel
  cases fuel with
  | zero =>
      intro u
      rw [C5_pass_zero]
  | succ f =>
      intro u
      rw [C5_pass_succ]
      exact C5_stNan1_stuck err f (u + 1)

set_option maxRecDepth 4000 in
/-- C5 (counterexample): on the one-pipe lumped network with assumed flow
exactly `0` (and `K = 1`), the solve call raises nothing at the division —
`hl/Qnew` is the IEEE quotient `0/0 = nan`, the loop's `S_hlQ` sum is `nan` —
and the call returns the ordinary non-convergence string after the budget
(3 here) is spent.  No DivisionByZero failure exists in the code. -/
theorem C5_zero_flow_counterexample :
    pipe_networkF fpowF .darcy true [] (1/100000000) 3 stC5 = .messageF (noConvMsg 3)
    ∧ sumHlQF (computeHlF fpowF .darcy true ⟨"Loop A", [pF]⟩) = .nan := by
  constructor
  · with_unfolding_all decide
  · with_unfolding_all decide

/-- C5 (amended): for every tolerance and every iteration budget, the
zero-flow pipe makes `hl/Qnew` evaluate to `nan` (the head loss at zero flow
is `0`, so the quotient is `0/0`), the `nan` propagates through `S_hlQ` and
the correction factor, the convergence test never passes, and the solver
returns the non-convergence message — it never fails with a division error
and never returns a numeric table. -/
theorem C5_nan_propagates (error : ℚ) (max_iter : Nat) :
    pipe_networkF fpowF .darcy true [] error max_iter stC5 = .messageF (noConvMsg max_iter)
    ∧ (computeHlF fpowF .darcy true ⟨"Loop A", [pF]⟩).pipes.map (fun p => p.hlQ) = [.nan] := by
  constructor
  · unfold pipe_networkF
    simp [C5_never_converges error (max_iter - 1) 0]
  · norm_num [computeHlF, pipeHlF, head_lossF, fpowF, exponent, pF,
      FVal.fabs, FVal.mul, FVal.div, FVal.flt, FVal.neg,
      show ((2:ℚ).num.toNat) = 2 from rfl]
